import Mathlib

/-!
Verification development for a Shopify extraction pipeline.

The Python source consists of two files: `shopify_dlt_pipeline.py` (the
orchestrator, including `incremental_load_with_backloading`) and
`shopify_extras.py` (the per-resource loaders: pages, metafields, blogs,
articles, inventory levels, B2B companies and contacts).  Each loader checks
credentials, drives a cursor-paginated HTTP loop, flattens nodes into rows and
hands them to a destination `pipeline.run` call on a resource declared with
`write_disposition="replace"`.

The embedding below models HTTP traffic as explicit response scripts (a list of
responses, consumed one per request, for sequential pagination loops; a
function from item id to response for per-item fan-out loops).  Generators are
modelled as functions returning the list of yielded rows, the outcome
(completed or raised), the number of requests issued, the log lines emitted and
the number of `time.sleep` calls.  `pipeline.run` submits the resource table
exactly when the generator completes without raising; a raise inside the
generator aborts the run, which each loader catches at its top level.
-/

set_option linter.unusedVariables false

/-- One emitted log or print line (the code mixes `logging` and `print`). -/
inductive LogEntry
  | warn (msg : String)
  | err (msg : String)
  | info (msg : String)
  | exc (msg : String)
  | printed (msg : String)
deriving Repr, DecidableEq

/-- Outcome of running a generator to exhaustion. -/
inductive GenOutcome
  | completed
  | raised (msg : String)
deriving Repr, DecidableEq

/-- Result of draining one resource generator: the rows it yielded, how it
ended, how many HTTP requests it issued, its log output and how many
`time.sleep` calls it made. -/
structure GenResult (ρ : Type) where
  rows : List ρ
  outcome : GenOutcome
  requests : Nat
  logs : List LogEntry
  sleeps : Nat
deriving Repr, DecidableEq

/-- Result of one loader invocation: HTTP calls made, log output, the
`(table, rows)` submissions performed by `pipeline.run`, and whether an
exception escaped the loader. -/
structure LoaderResult (ρ : Type) where
  httpCalls : Nat
  logs : List LogEntry
  submits : List (String × List ρ)
  raised : Bool
deriving Repr, DecidableEq

/-- The `pageInfo` object of a GraphQL connection.  The queries always request
`hasNextPage` and `endCursor`; `endCursor` is `null` (here `none`) on an empty
final page. -/
structure PageInfoJ where
  hasNextPage : Bool
  endCursor : Option String
deriving Repr, DecidableEq

/-- Configuration as read by the loaders: `sources.shopify_dlt.shop_url` and
`sources.shopify_dlt.private_app_password`, each possibly absent. -/
structure Creds where
  shopUrl : Option String
  accessToken : Option String
deriving Repr, DecidableEq

/-- Python `s.strip("/")`: drop leading and trailing slash characters. -/
def stripSlashes (s : String) : String :=
  String.mk (((s.toList.dropWhile (· == '/')).reverse.dropWhile (· == '/')).reverse)

/-- Python `s.replace(pat, rep)` on character lists for a nonempty pattern:
every non-overlapping occurrence is replaced, scanning left to right.  The
fuel argument (the length of the scanned list suffices, because a match
consumes at least one character) makes the scan structurally recursive. -/
def replaceGo (pat rep : List Char) : Nat → List Char → List Char
  | _, [] => []
  | 0, cs => cs
  | fuel + 1, c :: cs =>
    if pat ≠ [] ∧ (c :: cs).take pat.length = pat then
      rep ++ replaceGo pat rep fuel ((c :: cs).drop pat.length)
    else c :: replaceGo pat rep fuel cs

/-- Python `s.replace(pat, rep)` (kernel-computable form of `String.replace`
for the nonempty patterns the loaders use). -/
def replaceAll (s pat rep : String) : String :=
  String.mk (replaceGo pat.toList rep.toList s.toList.length s.toList)

/-- `get_base_shop_domain` from `shopify_extras.py`: the configured shop url
with protocol prefixes replaced away and slashes stripped; an absent config
value is treated as the empty string. -/
def get_base_shop_domain (c : Creds) : String :=
  stripSlashes (replaceAll (replaceAll (c.shopUrl.getD "") "https://" "") "http://" "")

/-- The guard `if not shop_domain or not access_token` used by every loader:
Python truthiness makes both `None` and the empty string falsy. -/
def credsMissingB (c : Creds) : Bool :=
  (get_base_shop_domain c == "") || (c.accessToken.getD "" == "")

/-- The second, redundant guard inside `load_pages` (and the second half of
`load_b2b_companies`), which tests the raw `shop_url` config value instead of
the stripped domain. -/
def rawCredsMissingB (c : Creds) : Bool :=
  (c.shopUrl.getD "" == "") || (c.accessToken.getD "" == "")

/-- Count the warning entries in a log. -/
def warnCount (logs : List LogEntry) : Nat :=
  logs.countP (fun e => match e with | .warn _ => true | _ => false)

/-! ## Backfill orchestration (`incremental_load_with_backloading`)

The Python loop

```
while current_start_date < max_end_date:
    end_date = min(current_start_date.add(weeks=1), max_end_date)
    ranges.append((current_start_date, end_date))
    current_start_date = end_date
```

is embedded with time measured in days (one week = 7 days).  The loop is
written with an explicit fuel argument so that it is structurally recursive;
`maxEnd - cur` iterations always suffice because each step strictly increases
`cur`, and `backfillGo_fuel` below proves the fuel choice irrelevant. -/

def backfillGo : Nat → Nat → Nat → List (Nat × Nat)
  | 0, _, _ => []
  | fuel + 1, cur, maxEnd =>
    if cur < maxEnd then
      (cur, min (cur + 7) maxEnd) :: backfillGo fuel (min (cur + 7) maxEnd) maxEnd
    else []

/-- The list of weekly backfill windows from `cur` (the configured minimum
start date) up to `maxEnd` (the precomputed `pendulum.now()`). -/
def backfillRanges (cur maxEnd : Nat) : List (Nat × Nat) :=
  backfillGo (maxEnd - cur) cur maxEnd

/-- `contiguousFromB a ws` checks that the windows `ws` start at `a`, are
chained (each start equals the previous end), are each nonempty and at most 7
days wide. -/
def contiguousFromB (a : Nat) : List (Nat × Nat) → Bool
  | [] => true
  | (x, y) :: rest =>
    (x == a) && decide (a < y) && decide (y ≤ a + 7) && contiguousFromB y rest

/-- Outcome of processing one backfill chunk (the body of the `try` in the
chunk loop: the core `pipeline.run` plus the supplemental loaders). -/
inductive ChunkOutcome
  | success
  | failure
deriving Repr, DecidableEq

/-- Observable events of a backfill run: chunk `idx` (1-based, as in
`enumerate(ranges, start=1)`) was attempted over `[startd, endd)`, or the final
incremental sync was started from `startd`. -/
inductive RunEvent
  | chunkRun (idx : Nat) (startd endd : Nat)
  | finalSync (startd : Nat)
deriving Repr, DecidableEq

/-- The chunk loop: each window is attempted in order; a failing chunk hits the
`except ... break` and ends the loop. -/
def chunkEvents (oc : Nat → ChunkOutcome) : List (Nat × Nat) → Nat → List RunEvent
  | [], _ => []
  | (a, b) :: rest, idx =>
    RunEvent.chunkRun idx a b ::
      (match oc idx with
       | .success => chunkEvents oc rest (idx + 1)
       | .failure => [])

/-- `incremental_load_with_backloading`: compute the weekly ranges, run the
chunk loop (with its break-on-failure), then run the final incremental sync
from `now` unconditionally. -/
def backloadTrace (start now : Nat) (oc : Nat → ChunkOutcome) : List RunEvent :=
  chunkEvents oc (backfillRanges start now) 1 ++ [RunEvent.finalSync now]

/-! ### Lemmas about the backfill window computation -/

theorem backfillGo_nil (fuel cur maxEnd : Nat) (h : ¬ cur < maxEnd) :
    backfillGo fuel cur maxEnd = [] := by
  cases fuel <;> simp [backfillGo, h]

/-- Any fuel at least `maxEnd - cur` computes the same window list, so the
fuel in `backfillRanges` is only a termination device, not part of the
semantics of the `while` loop. -/
theorem backfillGo_fuel : ∀ (f1 f2 cur maxEnd : Nat), maxEnd - cur ≤ f1 →
    maxEnd - cur ≤ f2 → backfillGo f1 cur maxEnd = backfillGo f2 cur maxEnd := by
  intro f1
  induction f1 with
  | zero =>
    intro f2 cur maxEnd h1 h2
    have hnc : ¬ cur < maxEnd := by omega
    rw [backfillGo_nil _ _ _ hnc, backfillGo_nil _ _ _ hnc]
  | succ f ih =>
    intro f2 cur maxEnd h1 h2
    by_cases hc : cur < maxEnd
    · cases f2 with
      | zero => omega
      | succ f2' =>
        simp only [backfillGo, if_pos hc]
        have hmin1 : cur < min (cur + 7) maxEnd := Nat.lt_min.mpr ⟨by omega, hc⟩
        exact congrArg _ (ih f2' _ _ (by omega) (by omega))
    · rw [backfillGo_nil _ _ _ hc, backfillGo_nil _ _ _ hc]

/-- Main specification of the window computation, proved by induction on the
fuel: the windows starting at `cur` are chained, nonempty, at most a week
wide, the last one ends at `maxEnd`, and their count is the ceiling of the
range length divided by 7. -/
theorem backfillGo_spec : ∀ (fuel cur maxEnd : Nat), maxEnd - cur ≤ fuel →
    contiguousFromB cur (backfillGo fuel cur maxEnd) = true ∧
    (backfillGo fuel cur maxEnd).length = (maxEnd - cur + 6) / 7 ∧
    (cur < maxEnd → ((backfillGo fuel cur maxEnd).map Prod.snd).getLast? = some maxEnd) := by
  intro fuel
  induction fuel with
  | zero =>
    intro cur maxEnd h
    refine ⟨by simp [backfillGo, contiguousFromB], by simp [backfillGo]; omega, ?_⟩
    intro hc; omega
  | succ f ih =>
    intro cur maxEnd h
    by_cases hc : cur < maxEnd
    · rcases Nat.le_total (cur + 7) maxEnd with h7 | h7
      · have hm : min (cur + 7) maxEnd = cur + 7 := Nat.min_eq_left h7
        obtain ⟨ih1, ih2, ih3⟩ := ih (cur + 7) maxEnd (by omega)
        simp only [backfillGo, if_pos hc, hm]
        refine ⟨?_, ?_, ?_⟩
        · simp only [contiguousFromB, Bool.and_eq_true, beq_iff_eq, decide_eq_true_eq]
          exact ⟨⟨⟨by simp, by omega⟩, by omega⟩, ih1⟩
        · simp only [List.length_cons, ih2]; omega
        · intro _
          by_cases hlt2 : cur + 7 < maxEnd
          · have h3 := ih3 hlt2
            cases hrm : (backfillGo f (cur + 7) maxEnd).map Prod.snd with
            | nil => rw [hrm] at h3; simp at h3
            | cons b t =>
              rw [hrm] at h3
              simp only [List.map_cons, hrm, List.getLast?_cons_cons]
              exact h3
          · have heq : cur + 7 = maxEnd := by omega
            rw [backfillGo_nil f (cur + 7) maxEnd (by omega)]
            simp [heq]
      · have hm : min (cur + 7) maxEnd = maxEnd := Nat.min_eq_right h7
        simp only [backfillGo, if_pos hc, hm]
        rw [backfillGo_nil f maxEnd maxEnd (by omega)]
        refine ⟨?_, by simp; omega, by intro _; simp⟩
        simp only [contiguousFromB, Bool.and_eq_true, beq_iff_eq, decide_eq_true_eq]
        exact ⟨⟨⟨by simp, hc⟩, h7⟩, by simp [contiguousFromB]⟩
    · rw [backfillGo_nil _ _ _ hc]
      exact ⟨by simp [contiguousFromB], by simp; omega, fun h2 => absurd h2 hc⟩

/-- C7: for every configured start date strictly before now, the backfill
windows `backfillRanges s n` are contiguous starting at `s` (each start equals
the previous end), non-overlapping and nonempty, at most 7 days wide, the last
window ends exactly at `n`, and there are `ceil((n - s) / 7)` of them. -/
theorem c7_backfill_partition (s n : Nat) (h : s < n) :
    contiguousFromB s (backfillRanges s n) = true ∧
    ((backfillRanges s n).map Prod.snd).getLast? = some n ∧
    (backfillRanges s n).length = (n - s + 6) / 7 := by
  obtain ⟨h1, h2, h3⟩ := backfillGo_spec (n - s) s n (Nat.le_refl _)
  exact ⟨h1, h3 h, h2⟩

/-- Concrete instance of C7: a 10-day range starting at day 0 is split into
the windows [0,7) and [7,10). -/
theorem c7_backfill_partition_witness :
    0 < 10 ∧ (contiguousFromB 0 (backfillRanges 0 10) = true ∧
      ((backfillRanges 0 10).map Prod.snd).getLast? = some 10 ∧
      (backfillRanges 0 10).length = (10 - 0 + 6) / 7) :=
  ⟨by decide, c7_backfill_partition 0 10 (by decide)⟩

/-! ### Lemmas about the backfill chunk loop -/

/-- If chunk `i` is the first failing chunk, no chunk with a higher index is
ever attempted: every `chunkRun` event carries an index at most `i`. -/
theorem chunkEvents_idx_le (oc : Nat → ChunkOutcome) (i : Nat) :
    ∀ (ranges : List (Nat × Nat)) (idx : Nat), idx ≤ i → oc i = .failure →
      (∀ j, idx ≤ j → j < i → oc j = .success) →
      ∀ k a b, RunEvent.chunkRun k a b ∈ chunkEvents oc ranges idx → k ≤ i := by
  intro ranges
  induction ranges with
  | nil =>
    intro idx _ _ _ k a b hmem
    simp [chunkEvents] at hmem
  | cons w rest ih =>
    intro idx hidx hfail hprev k a b hmem
    obtain ⟨a0, b0⟩ := w
    by_cases hj : idx = i
    · subst hj
      simp only [chunkEvents, hfail, List.mem_cons, List.not_mem_nil, or_false] at hmem
      cases hmem
      exact Nat.le_refl _
    · have hlt : idx < i := lt_of_le_of_ne hidx hj
      have hsucc : oc idx = .success := hprev idx (Nat.le_refl _) hlt
      simp only [chunkEvents, hsucc, List.mem_cons] at hmem
      rcases hmem with hmem | hmem
      · cases hmem; omega
      · exact ih (idx + 1) hlt hfail (fun j hj1 hj2 => hprev j (by omega) hj2) k a b hmem

/-- Every chunk up to and including the first failing one is attempted: if all
chunks before `j` succeed and the window list is long enough, a `chunkRun`
event for `j` appears. -/
theorem chunkEvents_attempted (oc : Nat → ChunkOutcome) :
    ∀ (ranges : List (Nat × Nat)) (idx j : Nat), idx ≤ j → j < idx + ranges.length →
      (∀ j2, idx ≤ j2 → j2 < j → oc j2 = .success) →
      ∃ a b, RunEvent.chunkRun j a b ∈ chunkEvents oc ranges idx := by
  intro ranges
  induction ranges with
  | nil =>
    intro idx j h1 h2 _
    simp at h2; omega
  | cons w rest ih =>
    intro idx j h1 h2 hprev
    obtain ⟨a0, b0⟩ := w
    by_cases hj : j = idx
    · subst hj
      exact ⟨a0, b0, by cases hoc : oc j <;> simp [chunkEvents, hoc]⟩
    · have hlt : idx < j := lt_of_le_of_ne h1 (Ne.symm hj)
      have hsucc : oc idx = .success := hprev idx (Nat.le_refl _) hlt
      obtain ⟨a, b, hm⟩ := ih (idx + 1) j hlt (by simp at h2; omega)
        (fun j2 hj2 hj2' => hprev j2 (by omega) hj2')
      exact ⟨a, b, by simp only [chunkEvents, hsucc, List.mem_cons]; right; exact hm⟩

/-- C4: in backfill mode, if chunk `i` (1-based) fails and every earlier chunk
succeeded, then no chunk with an index larger than `i` is ever attempted
(first conjunct), every chunk up to `i` that exists is attempted (second
conjunct), and for any chunk-outcome oracle whatsoever — all chunks succeeding
or the loop aborting — the trace still ends with the final incremental sync
starting at the precomputed `now` timestamp (third conjunct). -/
theorem c4_backfill_abort (start now : Nat) (oc : Nat → ChunkOutcome) (i : Nat)
    (h1 : 1 ≤ i) (hfail : oc i = .failure)
    (hprev : ∀ j, 1 ≤ j → j < i → oc j = .success) :
    (∀ k a b, RunEvent.chunkRun k a b ∈ backloadTrace start now oc → k ≤ i) ∧
    (∀ j, 1 ≤ j → j ≤ i → j ≤ (backfillRanges start now).length →
      ∃ a b, RunEvent.chunkRun j a b ∈ backloadTrace start now oc) ∧
    (∀ oc2 : Nat → ChunkOutcome,
      (backloadTrace start now oc2).getLast? = some (RunEvent.finalSync now)) := by
  refine ⟨?_, ?_, ?_⟩
  · intro k a b hmem
    rw [backloadTrace, List.mem_append] at hmem
    rcases hmem with hmem | hmem
    · exact chunkEvents_idx_le oc i (backfillRanges start now) 1 h1 hfail hprev k a b hmem
    · simp at hmem
  · intro j hj1 hj2 hj3
    obtain ⟨a, b, hm⟩ := chunkEvents_attempted oc (backfillRanges start now) 1 j hj1
      (by omega) (fun j2 h2 h2' => hprev j2 h2 (by omega))
    exact ⟨a, b, by rw [backloadTrace, List.mem_append]; left; exact hm⟩
  · intro oc2
    rw [backloadTrace]
    exact List.getLast?_concat _

/-- Outcome oracle for the C4 witness: the very first chunk fails. -/
def c4oc : Nat → ChunkOutcome := fun n => if n = 1 then .failure else .success

/-- Concrete instance of C4: over a 10-day backfill whose first chunk fails,
no later chunk runs and the final sync still closes the trace. -/
theorem c4_backfill_abort_witness :
    (∀ k a b, RunEvent.chunkRun k a b ∈ backloadTrace 0 10 c4oc → k ≤ 1) ∧
    (∀ j, 1 ≤ j → j ≤ 1 → j ≤ (backfillRanges 0 10).length →
      ∃ a b, RunEvent.chunkRun j a b ∈ backloadTrace 0 10 c4oc) ∧
    (∀ oc2 : Nat → ChunkOutcome,
      (backloadTrace 0 10 oc2).getLast? = some (RunEvent.finalSync 10)) :=
  c4_backfill_abort 0 10 c4oc 1 (by decide) (by decide) (fun j hj1 hj2 => by omega)

/-! ## Cursor-paginated GraphQL loops

`pages_resource` (the second, shadowing definition inside `load_pages`, the
one `pipeline.run` receives), `inventory_levels_resource` inside
`load_inventory_levels_gql`, and `companies_resource` inside the first half of
`load_b2b_companies`.  Each loop issues one POST per iteration; the script
list holds the successive responses, and an exhausted script stands for a
request whose connection fails. -/

/-- One edge object: its `node` key may be absent (or null). -/
structure GEdge where
  node : Option Nat
deriving Repr, DecidableEq

/-- A connection read defensively, as in `data.get("edges", [])` /
`data.get("pageInfo", {})`: a missing `pageInfo` makes `hasNextPage` falsy. -/
structure OptConn where
  edges : List GEdge
  pageInfo : Option PageInfoJ
deriving Repr, DecidableEq

/-- `page_info.get("hasNextPage")` after `data.get("pageInfo", {})`: absent
`pageInfo` means no next page. -/
def hasNextPageD (pi : Option PageInfoJ) : Bool :=
  (pi.map (·.hasNextPage)).getD false

/-- The pages connection as `pages_resource` reads it: `data["edges"]` and
`data["pageInfo"]` are indexed directly, so both are required. -/
structure PagesConn where
  edges : List GEdge
  pageInfo : PageInfoJ
deriving Repr, DecidableEq

/-- One response to the pages query: a transport failure (`raise_for_status`
raises), or HTTP 200 whose body may carry a top-level `errors` array and may
or may not carry `data` (`resp.json()["data"]["pages"]` raises a KeyError
when absent). -/
inductive PagesResp
  | httpError
  | ok (errors : Bool) (data : Option PagesConn)
deriving Repr, DecidableEq

/-- `for edge in data["edges"]: yield edge["node"]`: yields node after node
until an edge without a `node` key raises a KeyError; returns the yielded
prefix and whether the loop finished without raising. -/
def takeNodes : List GEdge → List Nat × Bool
  | [] => ([], true)
  | e :: rest =>
    match e.node with
    | none => ([], false)
    | some n =>
      let (ns, ok) := takeNodes rest
      (n :: ns, ok)

/-- The pagination loop of the active `pages_resource`: note that it never
inspects the `errors` flag and has no empty-edge-list guard — it stops only
on `hasNextPage` being falsy or on a raise. -/
def pagesGo : List PagesResp → GenResult Nat
  | [] => ⟨[], .raised "ConnectionError", 1, [], 0⟩
  | PagesResp.httpError :: _ => ⟨[], .raised "HTTPError", 1, [], 0⟩
  | PagesResp.ok _ none :: _ => ⟨[], .raised "KeyError data", 1, [], 0⟩
  | PagesResp.ok _ (some conn) :: rest =>
    let tn := takeNodes conn.edges
    if !tn.2 then ⟨tn.1, .raised "KeyError node", 1, [], 0⟩
    else if !conn.pageInfo.hasNextPage then
      ⟨tn.1, .completed, 1,
        [.printed "Loaded pages batch", .printed "Finished loading pages"], 0⟩
    else
      let r := pagesGo rest
      ⟨tn.1 ++ r.rows, r.outcome, r.requests + 1, .printed "Loaded pages batch" :: r.logs,
        r.sleeps⟩

/-- `load_pages`: two credential guards (neither logs anything), then
`pipeline.run(pages_resource())` guarded by a top-level `except` that prints a
failure line; a raise inside the generator aborts the run before any
submission. -/
def loadPages (c : Creds) (script : List PagesResp) : LoaderResult Nat :=
  if credsMissingB c then ⟨0, [], [], false⟩
  else if rawCredsMissingB c then ⟨0, [], [], false⟩
  else
    let g := pagesGo script
    match g.outcome with
    | .completed => ⟨g.requests, g.logs, [("pages", g.rows)], false⟩
    | .raised _ => ⟨g.requests, g.logs ++ [.printed "Failed to load pages"], [], false⟩

/-- The `location` object of one inventory-levels response;
`data.get("inventoryLevels", {})` tolerates an absent connection. -/
structure InvLoc where
  inventoryLevels : Option OptConn
deriving Repr, DecidableEq

/-- One response to the inventory-levels query:
`resp.json().get("data", {}).get("location", {})` tolerates a missing
`data`/`location` (falsy location logs a warning and breaks). -/
inductive InvResp
  | httpError
  | ok (location : Option InvLoc)
deriving Repr, DecidableEq

/-- The pagination loop of `inventory_levels_resource`: stops on a falsy
location, an empty edge list, or `hasNextPage` falsy; skips edges whose
`node` is absent. -/
def inventoryGo : List InvResp → GenResult Nat
  | [] => ⟨[], .raised "ConnectionError", 1, [], 0⟩
  | InvResp.httpError :: _ => ⟨[], .raised "HTTPError", 1, [], 0⟩
  | InvResp.ok none :: _ =>
    ⟨[], .completed, 1,
      [.warn "No location data in response", .info "Finished loading inventory levels"], 0⟩
  | InvResp.ok (some loc) :: rest =>
    match loc.inventoryLevels with
    | none => ⟨[], .completed, 1, [.info "Finished loading inventory levels"], 0⟩
    | some conn =>
      if conn.edges.isEmpty then
        ⟨[], .completed, 1, [.info "Finished loading inventory levels"], 0⟩
      else if !(hasNextPageD conn.pageInfo) then
        ⟨conn.edges.filterMap (·.node), .completed, 1,
          [.info "Finished loading inventory levels"], 0⟩
      else
        let r := inventoryGo rest
        ⟨conn.edges.filterMap (·.node) ++ r.rows, r.outcome, r.requests + 1, r.logs, r.sleeps⟩

/-- One node of the preliminary `locations(first: 1)` query; `edges[0]["node"]`,
`node["id"]` and `node["name"]` are indexed directly. -/
structure LocNode where
  id : String
  name : String
deriving Repr, DecidableEq

/-- Response to the locations query: the defensive chain
`(loc_data.get("data") or {}).get("locations", {}).get("edges", [])` yields a
possibly empty edge list, each edge possibly lacking its `node`. -/
inductive LocResp
  | httpError
  | ok (edges : List (Option LocNode))
deriving Repr, DecidableEq

/-- `load_inventory_levels_gql`: credential guard (with warning), the
locations request, the `if not edges` early return, then
`pipeline.run(inventory_levels_resource())`; every raise is caught by the
loader's top-level `except`. -/
def loadInventory (c : Creds) (loc : LocResp) (script : List InvResp) : LoaderResult Nat :=
  if credsMissingB c then
    ⟨0, [.warn "Missing Shopify credentials skipping inventory"], [], false⟩
  else
    match loc with
    | .httpError => ⟨1, [.exc "Failed to load inventory levels"], [], false⟩
    | .ok [] => ⟨1, [.err "No locations found check read locations scope"], [], false⟩
    | .ok (none :: _) => ⟨1, [.exc "Failed to load inventory levels"], [], false⟩
    | .ok (some ho :: _) =>
      let g := inventoryGo script
      match g.outcome with
      | .completed =>
        ⟨1 + g.requests, .info "Using location" :: g.logs,
          [("inventory_levels", g.rows)], false⟩
      | .raised _ =>
        ⟨1 + g.requests,
          .info "Using location" :: (g.logs ++ [.exc "Failed to load inventory levels"]),
          [], false⟩

/-- One response to the companies query of the first `load_b2b_companies`
implementation: `"errors" in payload` is tested first; then
`(payload.get("data") or {}).get("companies", {})` tolerates a missing
connection. -/
inductive B2BResp1
  | httpError
  | ok (errors : Bool) (companies : Option OptConn)
deriving Repr, DecidableEq

/-- The pagination loop of the first `companies_resource`: an `errors` key
logs an error and returns (a clean generator exit, not an exception); an
empty edge list or a falsy `hasNextPage` breaks; edges with falsy nodes are
skipped. -/
def companiesGo : List B2BResp1 → GenResult Nat
  | [] => ⟨[], .raised "ConnectionError", 1, [], 0⟩
  | B2BResp1.httpError :: _ => ⟨[], .raised "HTTPError", 1, [], 0⟩
  | B2BResp1.ok true _ :: _ => ⟨[], .completed, 1, [.err "Shopify B2B API error"], 0⟩
  | B2BResp1.ok false none :: _ => ⟨[], .completed, 1, [.info "Loaded B2B companies"], 0⟩
  | B2BResp1.ok false (some conn) :: rest =>
    if conn.edges.isEmpty then ⟨[], .completed, 1, [.info "Loaded B2B companies"], 0⟩
    else if !(hasNextPageD conn.pageInfo) then
      ⟨conn.edges.filterMap (·.node), .completed, 1, [.info "Loaded B2B companies"], 0⟩
    else
      let r := companiesGo rest
      ⟨conn.edges.filterMap (·.node) ++ r.rows, r.outcome, r.requests + 1, r.logs, r.sleeps⟩

/-! ### Termination conditions of the pagination loops (C2) -/

/-- A pages response reporting no further page. -/
def pagesNoNext : PagesResp → Bool
  | PagesResp.ok _ (some conn) => !conn.pageInfo.hasNextPage
  | _ => false

/-- An inventory response satisfying the claimed stop condition: an empty (or
absent) edge list, or `hasNextPage` falsy. -/
def invNoMore : InvResp → Bool
  | InvResp.ok (some loc) =>
    match loc.inventoryLevels with
    | none => true
    | some conn => conn.edges.isEmpty || !(hasNextPageD conn.pageInfo)
  | _ => false

/-- A companies response satisfying the claimed stop condition: an empty (or
absent) edge list, or `hasNextPage` falsy. -/
def compNoMore : B2BResp1 → Bool
  | B2BResp1.ok false none => true
  | B2BResp1.ok false (some conn) => conn.edges.isEmpty || !(hasNextPageD conn.pageInfo)
  | _ => false

theorem pagesGo_requests_cons (x : PagesResp) (rest : List PagesResp) :
    (pagesGo (x :: rest)).requests = 1 ∨
      (pagesGo (x :: rest)).requests = (pagesGo rest).requests + 1 := by
  cases x with
  | httpError => left; rfl
  | ok e data =>
    cases data with
    | none => left; rfl
    | some conn =>
      cases hok : (takeNodes conn.edges).2 with
      | false => left; simp [pagesGo, hok]
      | true =>
        cases hn : conn.pageInfo.hasNextPage with
        | false => left; simp [pagesGo, hok, hn]
        | true => right; simp [pagesGo, hok, hn]

theorem pagesGo_stop_head (x : PagesResp) (rest : List PagesResp)
    (h : pagesNoNext x = true) : (pagesGo (x :: rest)).requests = 1 := by
  cases x with
  | httpError => simp [pagesNoNext] at h
  | ok e data =>
    cases data with
    | none => simp [pagesNoNext] at h
    | some conn =>
      have hn : conn.pageInfo.hasNextPage = false := by
        simpa [pagesNoNext] using h
      cases hok : (takeNodes conn.edges).2 <;> simp [pagesGo, hok, hn]

/-- `pages_resource` never issues a request after a response reporting
`hasNextPage` false: at most one request beyond the position of such a
response is ever made. -/
theorem pagesGo_no_request_after (s1 : List PagesResp) (r : PagesResp)
    (s2 : List PagesResp) (h : pagesNoNext r = true) :
    (pagesGo (s1 ++ r :: s2)).requests ≤ s1.length + 1 := by
  induction s1 with
  | nil => simp [pagesGo_stop_head r s2 h]
  | cons x t ih =>
    rcases pagesGo_requests_cons x (t ++ r :: s2) with h1 | h1 <;>
      simp only [List.cons_append, h1, List.length_cons] <;> omega

theorem inventoryGo_requests_cons (x : InvResp) (rest : List InvResp) :
    (inventoryGo (x :: rest)).requests = 1 ∨
      (inventoryGo (x :: rest)).requests = (inventoryGo rest).requests + 1 := by
  cases x with
  | httpError => left; rfl
  | ok loc =>
    cases loc with
    | none => left; rfl
    | some l =>
      cases hl : l.inventoryLevels with
      | none => left; simp [inventoryGo, hl]
      | some conn =>
        cases he : conn.edges.isEmpty with
        | true => left; simp [inventoryGo, hl, he]
        | false =>
          cases hn : hasNextPageD conn.pageInfo with
          | false => left; simp [inventoryGo, hl, he, hn]
          | true => right; simp [inventoryGo, hl, he, hn]

theorem inventoryGo_stop_head (x : InvResp) (rest : List InvResp)
    (h : invNoMore x = true) : (inventoryGo (x :: rest)).requests = 1 := by
  cases x with
  | httpError => simp [invNoMore] at h
  | ok loc =>
    cases loc with
    | none => simp [invNoMore] at h
    | some l =>
      cases hl : l.inventoryLevels with
      | none => simp [inventoryGo, hl]
      | some conn =>
        rw [invNoMore] at h
        simp only [hl] at h
        rcases Bool.or_eq_true_iff.mp h with he | hn
        · simp [inventoryGo, hl, he]
        · have hn2 : hasNextPageD conn.pageInfo = false := by
            simpa using hn
          cases he : conn.edges.isEmpty <;> simp [inventoryGo, hl, he, hn2]

/-- `inventory_levels_resource` never issues a request after a response with
an empty edge list or `hasNextPage` false. -/
theorem inventoryGo_no_request_after (s1 : List InvResp) (r : InvResp)
    (s2 : List InvResp) (h : invNoMore r = true) :
    (inventoryGo (s1 ++ r :: s2)).requests ≤ s1.length + 1 := by
  induction s1 with
  | nil => simp [inventoryGo_stop_head r s2 h]
  | cons x t ih =>
    rcases inventoryGo_requests_cons x (t ++ r :: s2) with h1 | h1 <;>
      simp only [List.cons_append, h1, List.length_cons] <;> omega

theorem companiesGo_requests_cons (x : B2BResp1) (rest : List B2BResp1) :
    (companiesGo (x :: rest)).requests = 1 ∨
      (companiesGo (x :: rest)).requests = (companiesGo rest).requests + 1 := by
  cases x with
  | httpError => left; rfl
  | ok e data =>
    cases e with
    | true => left; cases data <;> rfl
    | false =>
      cases data with
      | none => left; rfl
      | some conn =>
        cases he : conn.edges.isEmpty with
        | true => left; simp [companiesGo, he]
        | false =>
          cases hn : hasNextPageD conn.pageInfo with
          | false => left; simp [companiesGo, he, hn]
          | true => right; simp [companiesGo, he, hn]

theorem companiesGo_stop_head (x : B2BResp1) (rest : List B2BResp1)
    (h : compNoMore x = true) : (companiesGo (x :: rest)).requests = 1 := by
  cases x with
  | httpError => simp [compNoMore] at h
  | ok e data =>
    cases e with
    | true => simp [compNoMore] at h
    | false =>
      cases data with
      | none => rfl
      | some conn =>
        rw [compNoMore] at h
        rcases Bool.or_eq_true_iff.mp h with he | hn
        · simp [companiesGo, he]
        · have hn2 : hasNextPageD conn.pageInfo = false := by
            simpa using hn
          cases he : conn.edges.isEmpty <;> simp [companiesGo, he, hn2]

/-- The first `companies_resource` never issues a request after a response
with an empty edge list or `hasNextPage` false. -/
theorem companiesGo_no_request_after (s1 : List B2BResp1) (r : B2BResp1)
    (s2 : List B2BResp1) (h : compNoMore r = true) :
    (companiesGo (s1 ++ r :: s2)).requests ≤ s1.length + 1 := by
  induction s1 with
  | nil => simp [companiesGo_stop_head r s2 h]
  | cons x t ih =>
    rcases companiesGo_requests_cons x (t ++ r :: s2) with h1 | h1 <;>
      simp only [List.cons_append, h1, List.length_cons] <;> omega

/-! ### Row counts of the pagination loops (C6) -/

/-- Number of edges on an inventory response whose `node` key is present. -/
def invPresentCount : InvResp → Nat
  | InvResp.ok (some loc) =>
    match loc.inventoryLevels with
    | some conn => (conn.edges.filterMap (·.node)).length
    | none => 0
  | _ => 0

/-- Total number of edges on an inventory response. -/
def invEdgeCount : InvResp → Nat
  | InvResp.ok (some loc) =>
    match loc.inventoryLevels with
    | some conn => conn.edges.length
    | none => 0
  | _ => 0

/-- Number of edges on a companies response whose `node` key is present. -/
def compPresentCount : B2BResp1 → Nat
  | B2BResp1.ok _ (some conn) => (conn.edges.filterMap (·.node)).length
  | _ => 0

/-- Total number of edges on a companies response. -/
def compEdgeCount : B2BResp1 → Nat
  | B2BResp1.ok _ (some conn) => conn.edges.length
  | _ => 0

/-- Whether a companies response carries a top-level `errors` array. -/
def compHasErrors : B2BResp1 → Bool
  | B2BResp1.ok true _ => true
  | _ => false

theorem map_congr_sum {α : Type} (f g : α → Nat) :
    ∀ (l : List α), (∀ x ∈ l, f x = g x) → (l.map f).sum = (l.map g).sum := by
  intro l
  induction l with
  | nil => intro _; rfl
  | cons a t ih =>
    intro h
    simp only [List.map_cons, List.sum_cons, h a (by simp),
      ih (fun x hx => h x (by simp [hx]))]

/-- When `inventory_levels_resource` completes, it yields exactly one row per
edge whose `node` is present, over the consumed prefix of the script. -/
theorem inventoryGo_row_count (s : List InvResp)
    (h : (inventoryGo s).outcome = .completed) :
    (inventoryGo s).rows.length =
      ((s.take (inventoryGo s).requests).map invPresentCount).sum := by
  induction s with
  | nil => simp [inventoryGo] at h
  | cons x rest ih =>
    cases x with
    | httpError => simp [inventoryGo] at h
    | ok loc =>
      cases loc with
      | none => simp [inventoryGo, invPresentCount]
      | some l =>
        cases hl : l.inventoryLevels with
        | none => simp [inventoryGo, hl, invPresentCount]
        | some conn =>
          cases he : conn.edges.isEmpty with
          | true =>
            have he2 : conn.edges = [] := List.isEmpty_iff.mp he
            simp [inventoryGo, hl, he, invPresentCount, he2]
          | false =>
            cases hn : hasNextPageD conn.pageInfo with
            | false => simp [inventoryGo, hl, he, hn, invPresentCount]
            | true =>
              have h2 : (inventoryGo rest).outcome = .completed := by
                simpa [inventoryGo, hl, he, hn] using h
              have ih2 := ih h2
              simp [inventoryGo, hl, he, hn, invPresentCount, List.take_succ_cons, ih2]

/-- When the first `companies_resource` completes and no consumed response
carries an `errors` array, it yields exactly one row per edge whose `node` is
present, over the consumed prefix of the script. -/
theorem companiesGo_row_count (s : List B2BResp1)
    (h : (companiesGo s).outcome = .completed)
    (herr : ∀ r ∈ s.take (companiesGo s).requests, compHasErrors r = false) :
    (companiesGo s).rows.length =
      ((s.take (companiesGo s).requests).map compPresentCount).sum := by
  induction s with
  | nil => simp [companiesGo] at h
  | cons x rest ih =>
    cases x with
    | httpError => simp [companiesGo] at h
    | ok e data =>
      cases e with
      | true =>
        have := herr (B2BResp1.ok true data) (by simp [companiesGo])
        simp [compHasErrors] at this
      | false =>
        cases data with
        | none => simp [companiesGo, compPresentCount]
        | some conn =>
          cases he : conn.edges.isEmpty with
          | true =>
            have he2 : conn.edges = [] := List.isEmpty_iff.mp he
            simp [companiesGo, he, compPresentCount, he2]
          | false =>
            cases hn : hasNextPageD conn.pageInfo with
            | false => simp [companiesGo, he, hn, compPresentCount]
            | true =>
              have h2 : (companiesGo rest).outcome = .completed := by
                simpa [companiesGo, he, hn] using h
              have herr2 : ∀ r ∈ rest.take (companiesGo rest).requests,
                  compHasErrors r = false := by
                intro r hr
                exact herr r (by simp [companiesGo, he, hn, List.take_succ_cons]; right; exact hr)
              have ih2 := ih h2 herr2
              simp [companiesGo, he, hn, compPresentCount, List.take_succ_cons, ih2]

/-! ## Claim C1 -/

/-- Credentials used by concrete counterexamples: a configured shop url and a
nonempty token, so every credential guard passes. -/
def okCreds : Creds := ⟨some "https://shop.example.com", some "token123"⟩

/-- C1 counterexample: a pages response with HTTP 200 and a top-level `errors`
array (alongside a normal `data` payload with one edge) is NOT treated as a
hard failure by `load_pages`: the loader completes, raises nothing, logs no
failure line, and submits one row to the `pages` table — not zero. -/
theorem c1_errors_array_counterexample :
    loadPages okCreds [PagesResp.ok true (some ⟨[⟨some 7⟩], ⟨false, none⟩⟩)] =
      ⟨1, [.printed "Loaded pages batch", .printed "Finished loading pages"],
        [("pages", [7])], false⟩ := by
  decide

/-- C1 amended: only the B2B company loaders inspect the top-level `errors`
array.  (1) `pages_resource` is completely insensitive to the `errors` flag —
a 200 response with `errors` and `data` is processed exactly like one without
`errors`.  (2) The first `companies_resource` stops at an `errors` response:
it logs an error, ends the generator cleanly (no exception) and yields no
rows from that page.  (3) However, rows yielded from pages before the
`errors` response are retained by the completed generator (and hence are
submitted), so the extraction is not a hard failure and the submitted row
count need not be zero. -/
theorem c1_errors_array :
    (∀ (d : Option PagesConn) (rest : List PagesResp),
      pagesGo (PagesResp.ok true d :: rest) = pagesGo (PagesResp.ok false d :: rest)) ∧
    (∀ (d : Option OptConn) (rest : List B2BResp1),
      companiesGo (B2BResp1.ok true d :: rest) =
        ⟨[], .completed, 1, [.err "Shopify B2B API error"], 0⟩) ∧
    (∀ (edges : List GEdge) (cur : Option String) (d : Option OptConn)
        (rest : List B2BResp1), edges ≠ [] →
      companiesGo (B2BResp1.ok false (some ⟨edges, some ⟨true, cur⟩⟩) ::
          B2BResp1.ok true d :: rest) =
        ⟨edges.filterMap (·.node), .completed, 2, [.err "Shopify B2B API error"], 0⟩) := by
  refine ⟨?_, ?_, ?_⟩
  · intro d rest; cases d <;> rfl
  · intro d rest; cases d <;> rfl
  · intro edges cur d rest hne
    have he : edges.isEmpty = false := by
      cases edges with
      | nil => exact absurd rfl hne
      | cons a t => rfl
    cases d <;> simp [companiesGo, he, hasNextPageD]

/-! ## Claim C2 -/

/-- C2 counterexample: `pages_resource` receives a page with an EMPTY edge
list and `hasNextPage` true — and issues a second request anyway: the empty
edge list does not stop this loop. -/
theorem c2_termination_counterexample :
    (pagesGo [PagesResp.ok false (some ⟨[], ⟨true, some "c1"⟩⟩),
      PagesResp.ok false (some ⟨[], ⟨false, none⟩⟩)]).requests = 2 := by
  decide

/-- C2 amended: every pagination loop stops after a response reporting
`hasNextPage` false and never issues another request afterwards; the
inventory-levels and B2B companies loops additionally stop on an empty (or
absent) edge list; but the pages loop checks only `hasNextPage` — after an
empty page with `hasNextPage` true it issues another request. -/
theorem c2_termination :
    (∀ (s1 : List PagesResp) (r : PagesResp) (s2 : List PagesResp),
      pagesNoNext r = true → (pagesGo (s1 ++ r :: s2)).requests ≤ s1.length + 1) ∧
    (∀ (s1 : List InvResp) (r : InvResp) (s2 : List InvResp),
      invNoMore r = true → (inventoryGo (s1 ++ r :: s2)).requests ≤ s1.length + 1) ∧
    (∀ (s1 : List B2BResp1) (r : B2BResp1) (s2 : List B2BResp1),
      compNoMore r = true → (companiesGo (s1 ++ r :: s2)).requests ≤ s1.length + 1) ∧
    (∀ (e : Bool) (cur : Option String) (rest : List PagesResp),
      (pagesGo (PagesResp.ok e (some ⟨[], ⟨true, cur⟩⟩) :: rest)).requests =
        (pagesGo rest).requests + 1) := by
  refine ⟨pagesGo_no_request_after, inventoryGo_no_request_after,
    companiesGo_no_request_after, ?_⟩
  intro e cur rest
  simp [pagesGo, takeNodes]

/-! ## Claim C6 -/

/-- C6 counterexample: an extraction that completes without error, having
fetched one page carrying exactly one edge — whose `node` key is absent — and
yields zero rows, not one row per edge. -/
theorem c6_row_count_counterexample :
    (inventoryGo [InvResp.ok (some ⟨some ⟨[⟨none⟩], some ⟨false, none⟩⟩⟩)]).outcome =
        .completed ∧
    (inventoryGo [InvResp.ok (some ⟨some ⟨[⟨none⟩], some ⟨false, none⟩⟩⟩)]).requests = 1 ∧
    (inventoryGo [InvResp.ok (some ⟨some ⟨[⟨none⟩], some ⟨false, none⟩⟩⟩)]).rows.length = 0 ∧
    invEdgeCount (InvResp.ok (some ⟨some ⟨[⟨none⟩], some ⟨false, none⟩⟩⟩)) = 1 := by
  decide

/-- C6 amended: a completed paginated extraction yields exactly one row per
edge whose `node` key is present (absent or null nodes are skipped), summed
over the pages actually fetched; this equals the total edge count exactly when
every fetched edge carries a node.  For the companies loop the equation holds
over error-free consumed prefixes. -/
theorem c6_row_counts :
    (∀ s : List InvResp, (inventoryGo s).outcome = .completed →
      (inventoryGo s).rows.length =
        ((s.take (inventoryGo s).requests).map invPresentCount).sum) ∧
    (∀ s : List InvResp, (inventoryGo s).outcome = .completed →
      (∀ r ∈ s.take (inventoryGo s).requests, invPresentCount r = invEdgeCount r) →
      (inventoryGo s).rows.length =
        ((s.take (inventoryGo s).requests).map invEdgeCount).sum) ∧
    (∀ s : List B2BResp1, (companiesGo s).outcome = .completed →
      (∀ r ∈ s.take (companiesGo s).requests, compHasErrors r = false) →
      (companiesGo s).rows.length =
        ((s.take (companiesGo s).requests).map compPresentCount).sum) := by
  refine ⟨inventoryGo_row_count, ?_, companiesGo_row_count⟩
  intro s h hall
  rw [inventoryGo_row_count s h]
  exact map_congr_sum _ _ _ hall

/-! ## Second half of `load_b2b_companies`

After the first implementation's try/except, execution falls through into a
second, older implementation in the same function body: it re-checks the raw
credentials, prefetches every company into a buffer (`fetch_all_companies`),
then runs three replace-mode resources over the buffer — `b2b_companies`,
`b2b_company_main_contacts` and `b2b_company_contacts`. -/

/-- `defaultEmailAddress { emailAddress }`. -/
structure EmailBlock where
  emailAddress : Option String
deriving Repr, DecidableEq

/-- `customer { id defaultEmailAddress { ... } }`. -/
structure CustomerObj where
  id : Option String
  defaultEmailAddress : Option EmailBlock
deriving Repr, DecidableEq

/-- A company contact node: `{ id customer { ... } }`. -/
structure ContactNode where
  id : Option String
  customer : Option CustomerObj
deriving Repr, DecidableEq

/-- One edge of a company's `contacts` connection; `edge.get("node")` may be
absent. -/
structure ContactEdge where
  node : Option ContactNode
deriving Repr, DecidableEq

/-- A company's `contacts` connection as read defensively:
`company.get("contacts", {}).get("edges", [])`. -/
structure ContactsList where
  edges : List ContactEdge
deriving Repr, DecidableEq

/-- A company node as the second implementation's query returns it. -/
structure CompanyNode2 where
  id : Option String
  mainContact : Option ContactNode
  contacts : Option ContactsList
deriving Repr, DecidableEq

/-- One edge of the companies connection; `edge["node"]` is indexed directly
in `fetch_all_companies`, so an absent node raises. -/
structure C2Edge where
  node : Option CompanyNode2
deriving Repr, DecidableEq

/-- The companies connection as `fetch_all_companies` reads it:
`json_resp["data"]["companies"]`, `companies["edges"]` and
`companies["pageInfo"]["hasNextPage"]` are all indexed directly. -/
structure Conn2 where
  edges : List C2Edge
  pageInfo : PageInfoJ
deriving Repr, DecidableEq

/-- One response to the second implementation's companies query. -/
inductive B2BResp2
  | httpError
  | ok (errors : Bool) (data : Option Conn2)
deriving Repr, DecidableEq

/-- How `fetch_all_companies` ends: an exception, the `return []` taken on an
`errors` body (discarding every page fetched so far), or the full buffer. -/
inductive FetchOut
  | raised
  | errsReturn
  | done (nodes : List CompanyNode2)
deriving Repr, DecidableEq

/-- Result of `fetch_all_companies`: outcome, requests issued, log lines. -/
structure FetchRes where
  out : FetchOut
  requests : Nat
  logs : List LogEntry
deriving Repr, DecidableEq

/-- `for edge in edges: all_companies.append(edge["node"])`: `none` means some
edge had no `node` key and the loop raised. -/
def extractNodes : List C2Edge → Option (List CompanyNode2)
  | [] => some []
  | e :: rest =>
    match e.node with
    | none => none
    | some c => (extractNodes rest).map (c :: ·)

/-- `fetch_all_companies` from the second implementation: strict indexing into
`data`/`edges`/`node`, `return []` on an `errors` body, accumulation across
pages otherwise. -/
def fetchAllCompanies : List B2BResp2 → FetchRes
  | [] => ⟨.raised, 1, []⟩
  | B2BResp2.httpError :: _ => ⟨.raised, 1, []⟩
  | B2BResp2.ok true _ :: _ => ⟨.errsReturn, 1, [.err "Shopify B2B API error"]⟩
  | B2BResp2.ok false none :: _ => ⟨.raised, 1, []⟩
  | B2BResp2.ok false (some conn) :: rest =>
    match extractNodes conn.edges with
    | none => ⟨.raised, 1, []⟩
    | some ns =>
      if conn.pageInfo.hasNextPage then
        let r := fetchAllCompanies rest
        match r.out with
        | .done more => ⟨.done (ns ++ more), r.requests + 1, r.logs⟩
        | o => ⟨o, r.requests + 1, r.logs⟩
      else ⟨.done ns, 1, []⟩

/-- A flattened destination row: the dict the generators build, as an ordered
association list from column name to an explicit value-or-null.  A key that is
absent from the list was never added to the dict at all. -/
abbrev FlatRow := List (String × Option String)

/-- The row construction shared by `main_contacts_resource` and
`contacts_resource`: `id` and `company_id` always; `customer_id` only under
`if cust:`; `email` only under `if email_block:` — absent nested objects make
the corresponding keys disappear from the row instead of becoming nulls. -/
def buildContactRow (n : ContactNode) (companyId : String) : FlatRow :=
  [("id", n.id), ("company_id", some companyId)] ++
    (match n.customer with
     | none => []
     | some cust =>
       ("customer_id", cust.id) ::
         (match cust.defaultEmailAddress with
          | none => []
          | some eb => [("email", eb.emailAddress)]))

/-- `main_contacts_resource` over the prefetched buffer: companies without a
`mainContact` are skipped entirely (no row); `company["id"]` is indexed
directly, so a company that has a mainContact but no `id` raises (the Bool
component is false). -/
def mainContactsRows : List CompanyNode2 → List FlatRow × Bool
  | [] => ([], true)
  | c :: rest =>
    match c.mainContact with
    | none => mainContactsRows rest
    | some mc =>
      match c.id with
      | none => ([], false)
      | some cid =>
        let r := mainContactsRows rest
        (buildContactRow mc cid :: r.1, r.2)

/-- A company's contact nodes that are present (truthy): the edges of
`company.get("contacts", {}).get("edges", [])` whose `node` exists. -/
def presentContactNodes (c : CompanyNode2) : List ContactNode :=
  ((c.contacts.map (·.edges)).getD []).filterMap (·.node)

/-- `contacts_resource` over the buffer: each company's contact edges with
falsy nodes skipped; `company id is indexed inside the per-node dict
construction, so it raises exactly when a present contact node meets a
company without an `id` key. -/
def contactsRows : List CompanyNode2 → List FlatRow × Bool
  | [] => ([], true)
  | c :: rest =>
    match presentContactNodes c with
    | [] => contactsRows rest
    | ns =>
      match c.id with
      | none => ([], false)
      | some cid =>
        let r := contactsRows rest
        (ns.map (fun n => buildContactRow n cid) ++ r.1, r.2)

/-- A row of any of the tables `load_b2b_companies` submits. -/
inductive B2BRow
  | nodeRow (n : Nat)
  | compRow (c : CompanyNode2)
  | flatRow (r : FlatRow)
deriving Repr, DecidableEq

/-- The three consecutive `pipeline.run` calls ending the second
implementation: companies always submits; a raise inside
`main_contacts_resource` (or `contacts_resource`) aborts the remaining runs
and is caught by the enclosing except. Returns (submissions, extra logs). -/
def b2bThreeRuns (buffer : List CompanyNode2) :
    List (String × List B2BRow) × List LogEntry :=
  let first := ("b2b_companies", buffer.map B2BRow.compRow)
  let m := mainContactsRows buffer
  if m.2 then
    let ct := contactsRows buffer
    if ct.2 then
      ([first, ("b2b_company_main_contacts", m.1.map B2BRow.flatRow),
        ("b2b_company_contacts", ct.1.map B2BRow.flatRow)], [])
    else
      ([first, ("b2b_company_main_contacts", m.1.map B2BRow.flatRow)],
        [.exc "Failed to load B2B companies"])
  else ([first], [.exc "Failed to load B2B companies"])

/-- `load_b2b_companies` whole-function model: the first implementation (its
credential warning, `companies_resource` run and submission) followed — in the
same invocation — by the second implementation (raw credential guard,
`fetch_all_companies`, then the three buffer-backed resources).  `s1` and `s2`
are the response scripts of the two implementations' request sequences. -/
def loadB2BCompanies (c : Creds) (s1 : List B2BResp1) (s2 : List B2BResp2) :
    LoaderResult B2BRow :=
  if credsMissingB c then
    ⟨0, [.warn "Missing Shopify credentials skipping b2b companies"], [], false⟩
  else
    let g1 := companiesGo s1
    let sub1 : List (String × List B2BRow) :=
      match g1.outcome with
      | .completed => [("b2b_companies", g1.rows.map B2BRow.nodeRow)]
      | .raised _ => []
    let logs1 :=
      match g1.outcome with
      | .completed => g1.logs
      | .raised _ => g1.logs ++ [.exc "Failed to load B2B companies"]
    if rawCredsMissingB c then
      ⟨g1.requests, logs1 ++ [.warn "Missing Shopify credentials skipping B2B companies"],
        sub1, false⟩
    else
      match fetchAllCompanies s2 with
      | ⟨FetchOut.raised, rq, lg⟩ =>
        ⟨g1.requests + rq, logs1 ++ lg ++ [.exc "Failed to load B2B companies"], sub1, false⟩
      | ⟨FetchOut.errsReturn, rq, lg⟩ =>
        let tr := b2bThreeRuns []
        ⟨g1.requests + rq, logs1 ++ lg ++ [.info "Loaded B2B companies count"] ++ tr.2,
          sub1 ++ tr.1, false⟩
      | ⟨FetchOut.done ns, rq, lg⟩ =>
        let tr := b2bThreeRuns ns
        ⟨g1.requests + rq, logs1 ++ lg ++ [.info "Loaded B2B companies count"] ++ tr.2,
          sub1 ++ tr.1, false⟩

/-! ## `load_products_metafields` and `load_pages_metafields`

REST collection loops followed by per-item fan-out loops.  The fan-out
environment maps an item id to that item's metafields response. -/

/-- One response to a REST listing request (a `products.json` page): transport
failure, or a body whose `products` key may be absent, plus whether the
`Link` header carries `rel="next"`. -/
inductive RestResp
  | httpError
  | ok (products : Option (List Nat)) (hasNextLink : Bool)
deriving Repr, DecidableEq

/-- Result of a REST collection loop: the ids gathered (`none` when the loop
raised) and the requests issued. -/
structure CollectRes where
  ids : Option (List Nat)
  requests : Nat
deriving Repr, DecidableEq

/-- The first implementation's product-id collection:
`resp.json().get("products", [])` tolerates a missing key; the loop follows
the `Link` header while `rel="next"` is present. -/
def collectIdsA : List RestResp → CollectRes
  | [] => ⟨none, 1⟩
  | RestResp.httpError :: _ => ⟨none, 1⟩
  | RestResp.ok prods link :: rest =>
    if link then
      let r := collectIdsA rest
      ⟨r.ids.map (prods.getD [] ++ ·), r.requests + 1⟩
    else ⟨some (prods.getD []), 1⟩

/-- The second (fallback) implementation's collection: the same loop over the
same urls, but `resp.json()["products"]` raises on a missing key. -/
def collectIdsB : List RestResp → CollectRes
  | [] => ⟨none, 1⟩
  | RestResp.httpError :: _ => ⟨none, 1⟩
  | RestResp.ok none _ :: _ => ⟨none, 1⟩
  | RestResp.ok (some prods) link :: rest =>
    if link then
      let r := collectIdsB rest
      ⟨r.ids.map (prods ++ ·), r.requests + 1⟩
    else ⟨some prods, 1⟩

/-- One response to a per-item metafields request: transport failure or a
body whose `metafields` key may be absent. -/
inductive ItemResp
  | httpError
  | ok (metafields : Option (List Nat))
deriving Repr, DecidableEq

/-- The fan-out loop of the first `products_metafields_resource`: each item
guarded by `try ... except RequestException`, which logs a warning, sleeps one
second and continues; `resp.json().get("metafields", [])` tolerates a missing
key; there is no sleep between successful items.  Rows pair a metafield with
its `product_id`. -/
def productsMfGoA : List Nat → (Nat → ItemResp) → GenResult (Nat × Nat)
  | [], _ => ⟨[], .completed, 0, [], 0⟩
  | pid :: rest, env =>
    match env pid with
    | ItemResp.httpError =>
      let r := productsMfGoA rest env
      ⟨r.rows, r.outcome, r.requests + 1, .warn "Request error for product" :: r.logs,
        r.sleeps + 1⟩
    | ItemResp.ok mfs =>
      let r := productsMfGoA rest env
      ⟨(mfs.getD []).map (fun m => (m, pid)) ++ r.rows, r.outcome, r.requests + 1, r.logs,
        r.sleeps⟩

/-- The fan-out loop of the second (fallback) `products_metafields_resource`:
no per-item try, no sleep — an item failure raises and aborts the resource. -/
def productsMfGoB : List Nat → (Nat → ItemResp) → GenResult (Nat × Nat)
  | [], _ => ⟨[], .completed, 0, [], 0⟩
  | pid :: rest, env =>
    match env pid with
    | ItemResp.httpError => ⟨[], .raised "HTTPError", 1, [], 0⟩
    | ItemResp.ok mfs =>
      let r := productsMfGoB rest env
      ⟨(mfs.getD []).map (fun m => (m, pid)) ++ r.rows, r.outcome, r.requests + 1, r.logs,
        r.sleeps⟩

/-- `load_products_metafields` whole-function model: the first implementation
(credential warning, tolerant collection, early return when no products,
tolerant fan-out, submit); an exception during its collection falls into the
`except` block which — after `logging.exception` — contains a second full
implementation (strict collection, strict fan-out) whose own exceptions
escape the loader. -/
def loadProductsMetafields (c : Creds) (cs : List RestResp) (env : Nat → ItemResp) :
    LoaderResult (Nat × Nat) :=
  if credsMissingB c then
    ⟨0, [.warn "Missing Shopify credentials skipping product metafields"], [], false⟩
  else
    let colA := collectIdsA cs
    match colA.ids with
    | some ids =>
      if ids.isEmpty then
        ⟨colA.requests, [.warn "No products found skipping metafield load"], [], false⟩
      else
        let g := productsMfGoA ids env
        ⟨colA.requests + g.requests, g.logs ++ [.info "Finished loading metafields"],
          [("products_metafields", g.rows)], false⟩
    | none =>
      let colB := collectIdsB cs
      match colB.ids with
      | none =>
        ⟨colA.requests + colB.requests, [.exc "Failed to load product metafields"], [], true⟩
      | some ids2 =>
        let g := productsMfGoB ids2 env
        match g.outcome with
        | .completed =>
          ⟨colA.requests + colB.requests + g.requests,
            [.exc "Failed to load product metafields"],
            [("products_metafields", g.rows)], false⟩
        | .raised _ =>
          ⟨colA.requests + colB.requests + g.requests,
            [.exc "Failed to load product metafields"], [], true⟩

/-- The fan-out loop of `pages_metafields_resource`: one GET per collected
page id, `raise_for_status` unguarded (no per-item try), no sleep;
`resp.json()["metafields"]` raises on a missing key.  Rows pair a metafield
with its `page_id`. -/
def pagesMfGo : List Nat → (Nat → ItemResp) → GenResult (Nat × Nat)
  | [], _ => ⟨[], .completed, 0, [], 0⟩
  | pid :: rest, env =>
    match env pid with
    | ItemResp.httpError => ⟨[], .raised "HTTPError", 1, [], 0⟩
    | ItemResp.ok none => ⟨[], .raised "KeyError metafields", 1, [], 0⟩
    | ItemResp.ok (some mfs) =>
      let r := pagesMfGo rest env
      ⟨mfs.map (fun m => (m, pid)) ++ r.rows, r.outcome, r.requests + 1, r.logs, r.sleeps⟩

/-! ## `load_b2b_contact_details` -/

/-- A contact node inside the collection query: `{ id }`. -/
structure CDNode where
  id : Option String
deriving Repr, DecidableEq

/-- One contact edge of the collection query. -/
structure CDEdge where
  node : Option CDNode
deriving Repr, DecidableEq

/-- A company's contacts connection: `c_node.get("contacts") or {}` then
`.get("edges", []) or []`. -/
structure CDContacts where
  edges : Option (List CDEdge)
deriving Repr, DecidableEq

/-- A company node of the collection query. -/
structure CompNodeCD where
  id : Option String
  contacts : Option CDContacts
deriving Repr, DecidableEq

/-- One company edge of the collection query: `c_edge.get("node") or {}`. -/
structure CompEdgeCD where
  node : Option CompNodeCD
deriving Repr, DecidableEq

/-- The companies connection read defensively: `.get("edges", [])` and
`.get("pageInfo", {})`. -/
structure CompaniesConnCD where
  edges : List CompEdgeCD
  pageInfo : Option PageInfoJ
deriving Repr, DecidableEq

/-- One response of the collection loop. -/
inductive CompaniesResp
  | httpError
  | ok (errors : Bool) (companies : Option CompaniesConnCD)
deriving Repr, DecidableEq

/-- The `(contact_id, company_id)` references one company edge contributes:
contact edges whose node exists and whose `id` is truthy (a present, nonempty
string) under `if node and node.get("id")`. -/
def contactRefsOfEdge (ce : CompEdgeCD) : List (String × Option String) :=
  match ce.node with
  | none => []
  | some cn =>
    ((cn.contacts.bind (·.edges)).getD []).filterMap (fun e =>
      match e.node with
      | none => none
      | some n =>
        match n.id with
        | none => none
        | some s => if s = "" then none else some (s, cn.id))

/-- How the collection loop of `load_b2b_contact_details` ends: a raise, the
loader-level `return` taken on an `errors` body, or the collected contact
references. -/
inductive CollectOut
  | raised
  | errsReturn
  | done (refs : List (String × Option String))
deriving Repr, DecidableEq

/-- Result of the collection loop: outcome, requests issued, log output. -/
structure CollectContactsRes where
  out : CollectOut
  requests : Nat
  logs : List LogEntry
deriving Repr, DecidableEq

/-- The companies/contacts collection loop at the top of
`load_b2b_contact_details` (the same shape as `load_b2b_company_contacts`):
stops on an empty (or absent) edge list or a falsy `hasNextPage`; an `errors`
body logs an error and returns from the loader. -/
def collectContacts : List CompaniesResp → CollectContactsRes
  | [] => ⟨.raised, 1, []⟩
  | CompaniesResp.httpError :: _ => ⟨.raised, 1, []⟩
  | CompaniesResp.ok true _ :: _ => ⟨.errsReturn, 1, [.err "Shopify B2B API error collect"]⟩
  | CompaniesResp.ok false none :: _ => ⟨.done [], 1, []⟩
  | CompaniesResp.ok false (some conn) :: rest =>
    if conn.edges.isEmpty then ⟨.done [], 1, []⟩
    else
      let here := conn.edges.flatMap contactRefsOfEdge
      if !(hasNextPageD conn.pageInfo) then ⟨.done here, 1, []⟩
      else
        let r := collectContacts rest
        match r.out with
        | .done more => ⟨.done (here ++ more), r.requests + 1, r.logs⟩
        | o => ⟨o, r.requests + 1, r.logs⟩

/-- `company { id }` of the detail query. -/
structure CompanyRef where
  id : Option String
deriving Repr, DecidableEq

/-- `amountSpent { amount currencyCode }`. -/
structure AmountSpent where
  amount : Option String
  currencyCode : Option String
deriving Repr, DecidableEq

/-- The customer object of the detail query. -/
structure CustomerDetail where
  id : Option String
  firstName : Option String
  lastName : Option String
  defaultEmailAddress : Option EmailBlock
  createdAt : Option String
  amountSpent : Option AmountSpent
deriving Repr, DecidableEq

/-- The `companyContact` object of the detail query. -/
structure CompanyContactJ where
  id : Option String
  company : Option CompanyRef
  customer : Option CustomerDetail
deriving Repr, DecidableEq

/-- One response to a per-contact detail request: transport failure, or a
body with an `errors` flag and a possibly absent (or null, hence falsy)
`data.companyContact`. -/
inductive DetailResp
  | httpError
  | ok (errors : Bool) (companyContact : Option CompanyContactJ)
deriving Repr, DecidableEq

/-- An all-absent customer object, the value of `cc.get("customer") or {}`
when the customer block is missing. -/
def emptyCustomerDetail : CustomerDetail := ⟨none, none, none, none, none, none⟩

/-- The explicit row built by `contact_details_resource`: every column is
always present, carrying an explicit null for any missing nested value (the
`or {}` chains). -/
def detailRow (cc : CompanyContactJ) : FlatRow :=
  let cust := cc.customer.getD emptyCustomerDetail
  let emailObj := cust.defaultEmailAddress.getD ⟨none⟩
  [("contact_id", cc.id),
   ("company_id", (cc.company.getD ⟨none⟩).id),
   ("customer_id", cust.id),
   ("first_name", cust.firstName),
   ("last_name", cust.lastName),
   ("email", emailObj.emailAddress),
   ("customer_created_at", cust.createdAt),
   ("amount_spent_amount", (cust.amountSpent.getD ⟨none, none⟩).amount),
   ("amount_spent_currency", (cust.amountSpent.getD ⟨none, none⟩).currencyCode)]

/-- The fan-out loop of `contact_details_resource`: a fixed `time.sleep(0.02)`
before every item's request; `raise_for_status` unguarded (an HTTP-level item
failure aborts the whole resource); an `errors` body logs a warning and skips
the item; a falsy `companyContact` skips silently; otherwise one explicit
row is yielded. -/
def contactDetailsGo : List (String × Option String) → (String → DetailResp) → GenResult FlatRow
  | [], _ => ⟨[], .completed, 0, [.info "Loaded B2B contact details"], 0⟩
  | (cid, _) :: rest, env =>
    match env cid with
    | DetailResp.httpError => ⟨[], .raised "HTTPError", 1, [], 1⟩
    | DetailResp.ok true _ =>
      let r := contactDetailsGo rest env
      ⟨r.rows, r.outcome, r.requests + 1, .warn "GraphQL error for contact" :: r.logs,
        r.sleeps + 1⟩
    | DetailResp.ok false none =>
      let r := contactDetailsGo rest env
      ⟨r.rows, r.outcome, r.requests + 1, r.logs, r.sleeps + 1⟩
    | DetailResp.ok false (some cc) =>
      let r := contactDetailsGo rest env
      ⟨detailRow cc :: r.rows, r.outcome, r.requests + 1, r.logs, r.sleeps + 1⟩

/-- `load_b2b_contact_details`: credential warning; the collection loop (an
`errors` body returns from the loader, a raise is caught by the top-level
except); the `if not contact_ids` early return; then
`pipeline.run(contact_details_resource())`. -/
def loadB2BContactDetails (c : Creds) (cs : List CompaniesResp)
    (env : String → DetailResp) : LoaderResult FlatRow :=
  if credsMissingB c then
    ⟨0, [.warn "Missing Shopify credentials skipping b2b contact details"], [], false⟩
  else
    match collectContacts cs with
    | ⟨CollectOut.raised, rq, lg⟩ =>
      ⟨rq, lg ++ [.exc "Failed to load B2B contact details"], [], false⟩
    | ⟨CollectOut.errsReturn, rq, lg⟩ => ⟨rq, lg, [], false⟩
    | ⟨CollectOut.done refs, rq, lg⟩ =>
      if refs.isEmpty then
        ⟨rq, lg ++ [.info "No B2B contacts found skipping"], [], false⟩
      else
        let g := contactDetailsGo refs env
        match g.outcome with
        | .completed =>
          ⟨rq + g.requests, lg ++ g.logs, [("b2b_contact_details", g.rows)], false⟩
        | .raised _ =>
          ⟨rq + g.requests, lg ++ g.logs ++ [.exc "Failed to load B2B contact details"],
            [], false⟩

/-! ## Claim C3 -/

/-- C3 counterexample: invoked with an empty access token, `load_pages`
returns immediately with zero HTTP calls and no exception — but it logs
NOTHING at all, not the exactly-one warning the claim requires. -/
theorem c3_missing_creds_counterexample :
    loadPages ⟨some "https://shop.example.com", some ""⟩ [] = ⟨0, [], [], false⟩ := by
  decide

/-- C3 amended: with a missing or empty shop domain or access token every
loader returns immediately — zero HTTP calls, no submission, no exception;
the inventory-levels, product-metafields and B2B loaders log exactly one
warning, while `load_pages` (and the other early loaders) log nothing. -/
theorem c3_missing_creds :
    (∀ (c : Creds) (s : List PagesResp), credsMissingB c = true →
      loadPages c s = ⟨0, [], [], false⟩) ∧
    (∀ (c : Creds) (loc : LocResp) (s : List InvResp), credsMissingB c = true →
      loadInventory c loc s =
        ⟨0, [.warn "Missing Shopify credentials skipping inventory"], [], false⟩) ∧
    (∀ (c : Creds) (cs : List RestResp) (env : Nat → ItemResp), credsMissingB c = true →
      loadProductsMetafields c cs env =
        ⟨0, [.warn "Missing Shopify credentials skipping product metafields"], [], false⟩) ∧
    (∀ (c : Creds) (s1 : List B2BResp1) (s2 : List B2BResp2), credsMissingB c = true →
      loadB2BCompanies c s1 s2 =
        ⟨0, [.warn "Missing Shopify credentials skipping b2b companies"], [], false⟩) ∧
    (∀ (c : Creds) (cs : List CompaniesResp) (env : String → DetailResp),
      credsMissingB c = true →
      loadB2BContactDetails c cs env =
        ⟨0, [.warn "Missing Shopify credentials skipping b2b contact details"], [], false⟩) := by
  refine ⟨?_, ?_, ?_, ?_, ?_⟩
  · intro c s h; simp [loadPages, h]
  · intro c loc s h; simp [loadInventory, h]
  · intro c cs env h; simp [loadProductsMetafields, h]
  · intro c s1 s2 h; simp [loadB2BCompanies, h]
  · intro c cs env h; simp [loadB2BContactDetails, h]

/-! ## Claim C5 -/

/-- The minimal company buffer used by the C5 counterexample. -/
def c5comp : CompanyNode2 := ⟨some "gid1", none, none⟩

/-- C5 counterexample: one happy-path invocation of `load_b2b_companies`
submits the `b2b_companies` table TWICE — once from each of the two
sequential implementations in the same function body. -/
theorem c5_submit_once_counterexample :
    ((loadB2BCompanies okCreds
        [B2BResp1.ok false (some ⟨[⟨some 1⟩], some ⟨false, none⟩⟩)]
        [B2BResp2.ok false (some ⟨[⟨some c5comp⟩], ⟨false, none⟩⟩)]).submits.map
      Prod.fst) =
      ["b2b_companies", "b2b_companies", "b2b_company_main_contacts",
        "b2b_company_contacts"] ∧
    (((loadB2BCompanies okCreds
        [B2BResp1.ok false (some ⟨[⟨some 1⟩], some ⟨false, none⟩⟩)]
        [B2BResp2.ok false (some ⟨[⟨some c5comp⟩], ⟨false, none⟩⟩)]).submits.map
      Prod.fst).count "b2b_companies") = 2 := by
  decide

/-- C5 amended: each individual resource run submits its table once, and the
single-table loaders submit at most one table per invocation; but
`load_b2b_companies` contains two sequential implementations and, on a run
where both halves succeed, submits `b2b_companies` twice — alongside one
submission each of the two contact tables. -/
theorem c5_submit_once :
    (∀ (c : Creds) (s : List PagesResp), (loadPages c s).submits.length ≤ 1) ∧
    (∀ (c : Creds) (loc : LocResp) (s : List InvResp),
      (loadInventory c loc s).submits.length ≤ 1) ∧
    (∀ (c : Creds) (cs : List RestResp) (env : Nat → ItemResp),
      (loadProductsMetafields c cs env).submits.length ≤ 1) ∧
    (∀ (c : Creds) (cs : List CompaniesResp) (env : String → DetailResp),
      (loadB2BContactDetails c cs env).submits.length ≤ 1) ∧
    (∀ (c : Creds) (s1 : List B2BResp1) (s2 : List B2BResp2) (ns : List CompanyNode2),
      credsMissingB c = false → rawCredsMissingB c = false →
      (companiesGo s1).outcome = GenOutcome.completed →
      (fetchAllCompanies s2).out = FetchOut.done ns →
      (mainContactsRows ns).2 = true → (contactsRows ns).2 = true →
      ((loadB2BCompanies c s1 s2).submits.map Prod.fst) =
        ["b2b_companies", "b2b_companies", "b2b_company_main_contacts",
          "b2b_company_contacts"]) := by
  refine ⟨?_, ?_, ?_, ?_, ?_⟩
  · intro c s
    rw [loadPages]
    split
    · simp
    · split
      · simp
      · cases h : (pagesGo s).outcome <;> simp [h]
  · intro c loc s
    rw [loadInventory.eq_def]
    split
    · simp
    · cases loc with
      | httpError => simp
      | ok eds =>
        cases eds with
        | nil => simp
        | cons e t =>
          cases e with
          | none => simp
          | some ho => cases h : (inventoryGo s).outcome <;> simp [h]
  · intro c cs env
    rw [loadProductsMetafields]
    split
    · simp
    · cases hA : (collectIdsA cs).ids with
      | some ids =>
        cases hids : ids.isEmpty <;> simp [hA, hids]
      | none =>
        cases hB : (collectIdsB cs).ids with
        | none => simp [hA, hB]
        | some ids2 =>
          cases h : (productsMfGoB ids2 env).outcome <;> simp [hA, hB, h]
  · intro c cs env
    rw [loadB2BContactDetails]
    split
    · simp
    · rcases hcc : collectContacts cs with ⟨o, rq, lg⟩
      cases o with
      | raised => simp [hcc]
      | errsReturn => simp [hcc]
      | done refs =>
        cases hr : refs.isEmpty
        · cases h : (contactDetailsGo refs env).outcome <;> simp [hcc, hr, h]
        · simp [hcc, hr]
  · intro c s1 s2 ns h1 h2 h3 h4 h5 h6
    rcases hfa : fetchAllCompanies s2 with ⟨o, rq, lg⟩
    rw [hfa] at h4
    simp only at h4
    subst h4
    simp [loadB2BCompanies, h1, h2, h3, hfa, b2bThreeRuns, h5, h6]

/-! ## Claim C8 -/

/-- The contact node of the C8 counterexample: an id but no customer block. -/
def c8contact : ContactNode := ⟨some "ct1", none⟩

/-- The company of the C8 counterexample: one contact, no main contact. -/
def c8company : CompanyNode2 := ⟨some "comp1", none, some ⟨[⟨some c8contact⟩]⟩⟩

/-- C8 counterexample: a contact node missing its optional `customer` block
flattens — in `contacts_resource` — to a row whose key set is exactly
`id, company_id`: the `customer_id` and `email` columns are NOT present with
explicit nulls, they are absent from the row altogether. -/
theorem c8_null_columns_counterexample :
    (contactsRows [c8company]).2 = true ∧
    (contactsRows [c8company]).1 =
      [[("id", some "ct1"), ("company_id", some "comp1")]] ∧
    ((contactsRows [c8company]).1.map (fun r => r.map Prod.fst)) =
      [["id", "company_id"]] := by
  decide

/-- C8 amended: flattening a node with a missing optional nested object never
raises (given the `id` fields the code indexes directly are present), but
only `contact_details_resource` produces explicit nulls: its row always
carries every column, with null values for a missing customer block.  The
`main_contacts_resource`/`contacts_resource` flatteners instead OMIT the
`customer_id`/`email` keys when `customer` is absent, and a company without a
`mainContact` contributes no main-contact row at all. -/
theorem c8_optional_nested :
    (∀ (i : Option String) (comp : Option CompanyRef),
      detailRow ⟨i, comp, none⟩ =
        [("contact_id", i), ("company_id", (comp.getD ⟨none⟩).id),
         ("customer_id", none), ("first_name", none), ("last_name", none),
         ("email", none), ("customer_created_at", none),
         ("amount_spent_amount", none), ("amount_spent_currency", none)]) ∧
    (∀ (n : ContactNode) (cid : String), n.customer = none →
      buildContactRow n cid = [("id", n.id), ("company_id", some cid)]) ∧
    (∀ (cid : Option String) (cts : Option ContactsList) (rest : List CompanyNode2),
      mainContactsRows (⟨cid, none, cts⟩ :: rest) = mainContactsRows rest) ∧
    (∀ ns : List CompanyNode2, (∀ n ∈ ns, n.id.isSome = true) →
      (mainContactsRows ns).2 = true ∧ (contactsRows ns).2 = true) := by
  refine ⟨?_, ?_, ?_, ?_⟩
  · intro i comp; rfl
  · intro n cid h; simp [buildContactRow, h]
  · intro cid cts rest; rfl
  · intro ns
    induction ns with
    | nil => intro _; exact ⟨rfl, rfl⟩
    | cons c rest ih =>
      intro h
      have hc : c.id.isSome = true := h c (by simp)
      have ih2 := ih (fun n hn => h n (by simp [hn]))
      obtain ⟨cid, hcid⟩ := Option.isSome_iff_exists.mp hc
      refine ⟨?_, ?_⟩
      · cases hmc : c.mainContact with
        | none => simpa [mainContactsRows, hmc] using ih2.1
        | some mc => simp [mainContactsRows, hmc, hcid, ih2.1]
      · cases hp : presentContactNodes c with
        | nil => simpa [contactsRows, hp] using ih2.2
        | cons a t => simp [contactsRows, hp, hcid, ih2.2]

/-! ## Claim C9 -/

/-- The all-failing item environment of the C9 counterexample. -/
def c9env : Nat → ItemResp := fun _ => ItemResp.httpError

/-- C9 counterexample: in the pages-metafields fan-out loop an individual
item-request failure is NOT tolerated and there is no inter-item sleep: the
resource raises immediately, with no warning logged, no sleep, and the item
not skipped. -/
theorem c9_fanout_counterexample :
    pagesMfGo [5] c9env = ⟨[], .raised "HTTPError", 1, [], 0⟩ := by
  decide

/-- C9 amended: per-item tolerance and sleeps exist only in SOME fan-out
loops.  (1) The first products-metafields fan-out logs a warning, sleeps one
second and continues past a failing item, (2) but inserts no sleep between
successful items.  (3) The pages-metafields fan-out aborts on an item failure
with no sleep and no warning.  (4) The contact-details fan-out sleeps before
every item and skips (with a warning) items whose body carries a GraphQL
`errors` array, (5) but an HTTP-level item failure still aborts it. -/
theorem c9_fanout :
    (∀ (pid : Nat) (rest : List Nat) (env : Nat → ItemResp), env pid = ItemResp.httpError →
      productsMfGoA (pid :: rest) env =
        ⟨(productsMfGoA rest env).rows, (productsMfGoA rest env).outcome,
         (productsMfGoA rest env).requests + 1,
         .warn "Request error for product" :: (productsMfGoA rest env).logs,
         (productsMfGoA rest env).sleeps + 1⟩) ∧
    (∀ (pid : Nat) (rest : List Nat) (env : Nat → ItemResp) (mfs : Option (List Nat)),
      env pid = ItemResp.ok mfs →
      (productsMfGoA (pid :: rest) env).sleeps = (productsMfGoA rest env).sleeps) ∧
    (∀ (pid : Nat) (rest : List Nat) (env : Nat → ItemResp), env pid = ItemResp.httpError →
      pagesMfGo (pid :: rest) env = ⟨[], .raised "HTTPError", 1, [], 0⟩) ∧
    (∀ (cid : String) (co : Option String) (rest : List (String × Option String))
        (env : String → DetailResp) (cc : Option CompanyContactJ),
      env cid = DetailResp.ok true cc →
      contactDetailsGo ((cid, co) :: rest) env =
        ⟨(contactDetailsGo rest env).rows, (contactDetailsGo rest env).outcome,
         (contactDetailsGo rest env).requests + 1,
         .warn "GraphQL error for contact" :: (contactDetailsGo rest env).logs,
         (contactDetailsGo rest env).sleeps + 1⟩) ∧
    (∀ (cid : String) (co : Option String) (rest : List (String × Option String))
        (env : String → DetailResp), env cid = DetailResp.httpError →
      contactDetailsGo ((cid, co) :: rest) env = ⟨[], .raised "HTTPError", 1, [], 1⟩) := by
  refine ⟨?_, ?_, ?_, ?_, ?_⟩
  · intro pid rest env h; simp [productsMfGoA, h]
  · intro pid rest env mfs h; simp [productsMfGoA, h]
  · intro pid rest env h; simp [pagesMfGo, h]
  · intro cid co rest env cc h; simp [contactDetailsGo, h]
  · intro cid co rest env h; simp [contactDetailsGo, h]

/-! ## Claim C10 -/

/-- If the tolerant first-implementation collection of
`load_products_metafields` raises, the strict fallback collection — replaying
the same deterministic request sequence — raises as well. -/
theorem collectIdsB_error_of_A (cs : List RestResp) (h : (collectIdsA cs).ids = none) :
    (collectIdsB cs).ids = none := by
  induction cs with
  | nil => rfl
  | cons x rest ih =>
    cases x with
    | httpError => rfl
    | ok prods link =>
      cases prods with
      | none => rfl
      | some ps =>
        cases link with
        | false => simp [collectIdsA] at h
        | true =>
          have h2 : (collectIdsA rest).ids = none := by
            simpa [collectIdsA, Option.map_eq_none'] using h
          simp [collectIdsB, Option.map_eq_none', ih h2]

/-- C10: on every modelled early-exit path — missing credentials, an empty
locations list, an empty product-id collection or a collection that raises
(the fallback implementation then raises on the same deterministic request
sequence), and an empty, errors-bearing or raising contact collection — the
loader performs no submission at all, so the destination table is never
replaced (in particular never replaced with an empty table). -/
theorem c10_no_submit_on_early_exit :
    (∀ (c : Creds) (s : List PagesResp), credsMissingB c = true →
      (loadPages c s).submits = []) ∧
    (∀ (c : Creds) (s : List InvResp),
      (loadInventory c (LocResp.ok []) s).submits = []) ∧
    (∀ (c : Creds) (cs : List RestResp) (env : Nat → ItemResp),
      (collectIdsA cs).ids = some [] ∨ (collectIdsA cs).ids = none →
      (loadProductsMetafields c cs env).submits = []) ∧
    (∀ (c : Creds) (cs : List CompaniesResp) (env : String → DetailResp),
      (collectContacts cs).out = CollectOut.done [] ∨
        (collectContacts cs).out = CollectOut.errsReturn ∨
        (collectContacts cs).out = CollectOut.raised →
      (loadB2BContactDetails c cs env).submits = []) := by
  refine ⟨?_, ?_, ?_, ?_⟩
  · intro c s h; simp [loadPages, h]
  · intro c s
    cases hm : credsMissingB c <;> simp [loadInventory, hm]
  · intro c cs env h
    cases hm : credsMissingB c
    · rcases h with h | h
      · simp [loadProductsMetafields, hm, h]
      · have hb := collectIdsB_error_of_A cs h
        simp [loadProductsMetafields, hm, h, hb]
    · simp [loadProductsMetafields, hm]
  · intro c cs env h
    cases hm : credsMissingB c
    · rcases hcc : collectContacts cs with ⟨o, rq, lg⟩
      rw [hcc] at h
      simp only at h
      rcases h with h | h | h <;> subst h <;> simp [loadB2BContactDetails, hm, hcc]
    · simp [loadB2BContactDetails, hm]
